import Mathlib

/-!
Shallow embedding of the nest-boilerplate CRUD services (auth, user,
company, project, task, status) and of the Prisma known-error filter.

Conventions of the embedding:
* UUIDs and timestamps are modelled as `Nat`; nullable columns as `Option`.
* The database is a record of lists, one per table; Prisma `findFirst` /
  `findMany` / `count` / `update` become list operations over those lists.
* Fallible service methods return `Except ServiceError _`; a thrown
  framework exception or Prisma known request error is an `.error` value.
* bcrypt: the repository calls `hash(password, PASSWORD_SALT)` where the
  environment documents `PASSWORD_SALT` as a number of salt rounds, so each
  call generates a fresh random salt which bcrypt embeds in its output.
  A hash output is therefore modelled as the pair of the generating salt
  (identified by the nonce of its generation) and the hashed input; digest
  collisions are ignored, as is standard.  Freshness is modelled by a nonce
  counter threaded through `AuthState`.
-/

namespace NestBoilerplate

structure JwtUserInfo where
  id : Nat
  name : String
  isAdmin : Bool
  deriving DecidableEq, Repr

structure BcryptHash where
  saltNonce : Nat
  input : String
  deriving DecidableEq, Repr

/-- Model of `bcrypt.hash(password, rounds)`: the output embeds the freshly
generated salt, identified here by the generation nonce. -/
def bcryptHash (password : String) (saltNonce : Nat) : BcryptHash :=
  { saltNonce := saltNonce, input := password }

structure User where
  id : Nat
  email : String
  name : String
  password : BcryptHash
  isAdmin : Bool
  deletedAt : Option Nat
  deriving DecidableEq, Repr

structure Company where
  id : Nat
  name : String
  ownerId : Option Nat
  deletedAt : Option Nat
  updatedAt : Option Nat
  createdAt : Option Nat
  deriving DecidableEq, Repr

structure Project where
  id : Nat
  name : String
  companyId : Option Nat
  deletedAt : Option Nat
  updatedAt : Option Nat
  createdAt : Option Nat
  deriving DecidableEq, Repr

/-- The `statudId` field name preserves the schema typo of the source. -/
structure Task where
  id : Nat
  name : String
  description : String
  statudId : Nat
  assigneeId : Option Nat
  reporterId : Nat
  priorityId : Nat
  deletedAt : Option Nat
  updatedAt : Option Nat
  createdAt : Option Nat
  deriving DecidableEq, Repr

structure Status where
  id : Nat
  name : String
  deriving DecidableEq, Repr

structure Db where
  users : List User
  companies : List Company
  projects : List Project
  tasks : List Task
  statuses : List Status
  deriving DecidableEq, Repr

structure PrismaKnownRequestError where
  code : String
  modelName : String
  target : List String
  deriving DecidableEq, Repr

/-- `PrismaClientKnownRequestError` with code P2025 (record not found),
as thrown by `findFirstOrThrow` / `findUniqueOrThrow` / `update`. -/
def prismaP2025 (modelName : String) : PrismaKnownRequestError :=
  { code := "P2025", modelName := modelName, target := [] }

inductive ServiceError where
  | notFound (msg : String)
  | forbidden (msg : String)
  | prismaKnown (e : PrismaKnownRequestError)
  deriving DecidableEq, Repr

/-- Replace the first element satisfying `p` using `f`; returns the new list
together with the updated element, or `none` when nothing matches.  This is
the model of Prisma `update`: exactly one matching record is rewritten, a
missing record raises P2025 at the call sites. -/
def replaceFirst (p : α → Bool) (f : α → α) : List α → Option (List α × α)
  | [] => none
  | x :: xs =>
    if p x then some (f x :: xs, f x)
    else
      match replaceFirst p f xs with
      | some (ys, y) => some (x :: ys, y)
      | none => none

/-! ### UserService (src/user/user.service.ts) -/

/-- `Partial<User>` update payload: a field is written iff it is provided. -/
structure UserUpdateData where
  email : Option String := none
  name : Option String := none
  password : Option BcryptHash := none
  isAdmin : Option Bool := none
  deletedAt : Option (Option Nat) := none
  deriving DecidableEq, Repr

def applyUserUpdate (data : UserUpdateData) (u : User) : User :=
  { u with
    email := data.email.getD u.email
    name := data.name.getD u.name
    password := data.password.getD u.password
    isAdmin := data.isAdmin.getD u.isAdmin
    deletedAt := data.deletedAt.getD u.deletedAt }

/-- `UserService.update`: `prisma.user.update({ where: { id }, data })`. -/
def UserService.update (id : Nat) (data : UserUpdateData) (db : Db) :
    Except ServiceError (User × Db) :=
  match replaceFirst (fun u => decide (u.id = id)) (applyUserUpdate data) db.users with
  | none => .error (.prismaKnown (prismaP2025 "User"))
  | some (users2, u2) => .ok (u2, { db with users := users2 })

/-- `UserService.deleteOne`: `this.update(userId, { deletedAt: new Date() })`. -/
def UserService.deleteOne (userId : Nat) (now : Nat) (db : Db) :
    Except ServiceError (User × Db) :=
  UserService.update userId { deletedAt := some (some now) } db

/-- `UserService.getOneByEmail`: `prisma.user.findFirst({ where: { email } })`. -/
def UserService.getOneByEmail (email : String) (db : Db) : Option User :=
  db.users.find? (fun u => decide (u.email = email))

/-! ### AuthService (src/auth/auth.service.ts) -/

structure AuthSignUpDto where
  email : String
  name : String
  password : String
  deriving DecidableEq, Repr

structure AuthSignInDto where
  email : String
  password : String
  deriving DecidableEq, Repr

/-- Both tokens sign the same payload `{ id, name, isAdmin }` (with 8h and
12h expiries, irrelevant to the claims). -/
structure JwtPair where
  accessToken : JwtUserInfo
  refreshToken : JwtUserInfo
  deriving DecidableEq, Repr

def AuthService.generateJwtPair (user : User) : JwtPair :=
  let payload : JwtUserInfo := { id := user.id, name := user.name, isAdmin := user.isAdmin }
  { accessToken := payload, refreshToken := payload }

/-- Auth-facing system state: the database plus the bcrypt salt-generation
nonce counter and the id generator for created rows. -/
structure AuthState where
  db : Db
  nextNonce : Nat
  nextId : Nat
  deriving DecidableEq, Repr

/-- `AuthService.signUp`: hash the password (consuming a fresh salt nonce),
create the user via `userService.create`, return a JWT pair. -/
def AuthService.signUp (data : AuthSignUpDto) (s : AuthState) : JwtPair × AuthState :=
  let passwordHash := bcryptHash data.password s.nextNonce
  let user : User :=
    { id := s.nextId, email := data.email, name := data.name
      password := passwordHash, isAdmin := false, deletedAt := none }
  (AuthService.generateJwtPair user,
    { db := { s.db with users := s.db.users ++ [user] }
      nextNonce := s.nextNonce + 1
      nextId := s.nextId + 1 })

/-- `AuthService.signIn`: re-hash the submitted password (consuming a fresh
salt nonce), look the user up by email, compare the fresh hash against the
stored one with `!==`, reject soft-deleted users, else return a JWT pair. -/
def AuthService.signIn (data : AuthSignInDto) (s : AuthState) :
    Except ServiceError JwtPair × AuthState :=
  let hashedPassword := bcryptHash data.password s.nextNonce
  let s2 : AuthState := { s with nextNonce := s.nextNonce + 1 }
  match UserService.getOneByEmail data.email s.db with
  | none => (.error (.notFound "User does not exist"), s2)
  | some user =>
    if hashedPassword ≠ user.password then
      (.error (.notFound "User does not exist"), s2)
    else if user.deletedAt ≠ none then
      (.error (.notFound "User does not exist"), s2)
    else
      (.ok (AuthService.generateJwtPair user), s2)

/-- Invariant: every stored password hash was generated by an already
consumed salt nonce. -/
def AuthState.WF (s : AuthState) : Prop :=
  ∀ u ∈ s.db.users, u.password.saltNonce < s.nextNonce

theorem AuthState.WF.signUp {s : AuthState} (h : s.WF) (data : AuthSignUpDto) :
    (AuthService.signUp data s).2.WF := by
  intro u hu
  simp only [AuthService.signUp, List.mem_append, List.mem_singleton] at hu
  rcases hu with hu | rfl
  · exact Nat.lt_succ_of_lt (h u hu)
  · exact Nat.lt_succ_self _

theorem signIn_fails_of_WF {s : AuthState} (h : s.WF) (data : AuthSignInDto) :
    (AuthService.signIn data s).1 = .error (.notFound "User does not exist") := by
  unfold AuthService.signIn
  cases hfind : UserService.getOneByEmail data.email s.db with
  | none => rfl
  | some user =>
    have hmem : user ∈ s.db.users := by
      have := List.mem_of_find?_eq_some hfind
      exact this
    have hlt : user.password.saltNonce < s.nextNonce := h user hmem
    have hne : bcryptHash data.password s.nextNonce ≠ user.password := by
      intro heq
      have : s.nextNonce = user.password.saltNonce := congrArg BcryptHash.saltNonce heq
      omega
    simp [hfind, hne]

/-! ### Pagination (src/common/pagination/dto/base.pagination.dto.ts) -/

structure PaginationOptionsDto where
  page : Nat
  perPage : Nat
  deriving DecidableEq, Repr

/-- Meta block of every pagination response (name keeps the source typo). -/
structure PaginatioMetaData where
  page : Nat
  perPage : Nat
  total : Nat
  totalPages : Nat
  deriving DecidableEq, Repr

structure BasePaginationDto (α : Type) where
  items : List α
  meta : PaginatioMetaData
  deriving DecidableEq, Repr

/-- `Math.ceil(count / perPage)` translated to naturals; the DTO validation
guarantees `perPage ≥ 1`, under which this is the real ceiling. -/
def mathCeilDiv (count perPage : Nat) : Nat :=
  (count + perPage - 1) / perPage

/-! ### CompanyService (src/company/company.service.ts) -/

/-- `{ ownerId?: string }` where-object built by the company service. -/
structure CompanyWhere where
  ownerId : Option Nat := none
  deriving DecidableEq, Repr

def companyWhereMatches (w : CompanyWhere) (c : Company) : Bool :=
  match w.ownerId with
  | none => true
  | some v => decide (c.ownerId = some v)

/-- `prisma.company.findMany({ where, take, skip })`. -/
def companyFindMany (db : Db) (w : CompanyWhere) (takeN skipN : Nat) : List Company :=
  ((db.companies.filter (companyWhereMatches w)).drop skipN).take takeN

/-- `prisma.company.count({ where })`. -/
def companyCount (db : Db) (w : CompanyWhere) : Nat :=
  (db.companies.filter (companyWhereMatches w)).length

/-- `CompanyService.getCompanyById`: `findFirstOrThrow({ where: { id } })`,
then return only to the owner or an admin, else ForbiddenException. -/
def CompanyService.getCompanyById (id : Nat) (user : JwtUserInfo) (db : Db) :
    Except ServiceError Company :=
  match db.companies.find? (fun c => decide (c.id = id)) with
  | none => .error (.prismaKnown (prismaP2025 "Company"))
  | some company =>
    if company.ownerId = some user.id ∨ user.isAdmin = true then .ok company
    else .error (.forbidden "User can\x27t get company")

/-- `Partial<Company> & UpdateCompanyDto` payload. -/
structure UpdateCompanyDto where
  name : Option String := none
  unarchive : Bool := false
  deletedAt : Option (Option Nat) := none
  deriving DecidableEq, Repr

/-- `{ ...data, updatedAt: new Date() }` applied to a company row. -/
def applyCompanyUpdate (data : UpdateCompanyDto) (now : Nat) (c : Company) : Company :=
  { c with
    name := data.name.getD c.name
    deletedAt := data.deletedAt.getD c.deletedAt
    updatedAt := some now }

/-- `CompanyService.updateCompanyById`: where is `{ id }` plus
`ownerId = user.id` for non-admins; `unarchive` clears `deletedAt`. -/
def CompanyService.updateCompanyById (id : Nat) (user : JwtUserInfo)
    (data : UpdateCompanyDto) (now : Nat) (db : Db) :
    Except ServiceError (Company × Db) :=
  let whereOwner : Option Nat := if user.isAdmin = true then none else some user.id
  let data2 := if data.unarchive = true then { data with deletedAt := some none } else data
  match replaceFirst
      (fun c => decide (c.id = id) && whereOwner.all (fun v => decide (c.ownerId = some v)))
      (applyCompanyUpdate data2 now) db.companies with
  | none => .error (.prismaKnown (prismaP2025 "Company"))
  | some (companies2, c2) => .ok (c2, { db with companies := companies2 })

/-- `CompanyService.getCompanies`: build `whereConditions` once (empty for
admins, `{ ownerId: user.id }` otherwise), pass it to both `findMany` (with
take/skip) and `count`, and assemble the pagination DTO. -/
def CompanyService.getCompanies (options : PaginationOptionsDto) (user : JwtUserInfo)
    (db : Db) : BasePaginationDto Company :=
  let whereConditions : CompanyWhere :=
    if user.isAdmin = true then {} else { ownerId := some user.id }
  let items := companyFindMany db whereConditions options.perPage
    (options.perPage * (options.page - 1))
  let count := companyCount db whereConditions
  { items := items
    meta :=
      { page := options.page
        perPage := items.length
        totalPages := mathCeilDiv count options.perPage
        total := count } }

/-! ### ProjectService (src/project/project.service.ts) -/

/-- `company: { ownerId: uid }` relation filter: the project must reference
an existing company owned by `uid`. -/
def projectCompanyOwned (db : Db) (p : Project) (uid : Nat) : Bool :=
  db.companies.any (fun c => decide (p.companyId = some c.id) && decide (c.ownerId = some uid))

/-- `where` object of the project queries: none for admins, otherwise the
`company: { ownerId: user.id }` relation filter. -/
structure ProjectWhere where
  companyOwnerId : Option Nat := none
  deriving DecidableEq, Repr

def projectWhereMatches (db : Db) (w : ProjectWhere) (p : Project) : Bool :=
  match w.companyOwnerId with
  | none => true
  | some uid => projectCompanyOwned db p uid

def projectFindMany (db : Db) (w : ProjectWhere) (takeN skipN : Nat) : List Project :=
  ((db.projects.filter (projectWhereMatches db w)).drop skipN).take takeN

def projectCount (db : Db) (w : ProjectWhere) : Nat :=
  (db.projects.filter (projectWhereMatches db w)).length

/-- `ProjectService.getProjectById`: admins use `findUniqueOrThrow({ id })`,
others `findFirstOrThrow({ id, company: { ownerId: user.id } })`. -/
def ProjectService.getProjectById (id : Nat) (user : JwtUserInfo) (db : Db) :
    Except ServiceError Project :=
  if user.isAdmin = true then
    match db.projects.find? (fun p => decide (p.id = id)) with
    | some p => .ok p
    | none => .error (.prismaKnown (prismaP2025 "Project"))
  else
    match db.projects.find?
        (fun p => decide (p.id = id) && projectCompanyOwned db p user.id) with
    | some p => .ok p
    | none => .error (.prismaKnown (prismaP2025 "Project"))

structure CreateProjectDto where
  name : String
  companyId : Nat
  deriving DecidableEq, Repr

/-- `ProjectService.createProject`: admins create directly; non-admins are
checked for ownership of the target company — not owning it raises
ForbiddenException, owning it falls through the `if` and the method returns
`undefined` (modelled as `.ok none`) without creating anything. -/
def ProjectService.createProject (data : CreateProjectDto) (user : JwtUserInfo)
    (newId : Nat) (now : Nat) (db : Db) :
    Except ServiceError (Option Project) × Db :=
  if user.isAdmin = true then
    let p : Project :=
      { id := newId, name := data.name, companyId := some data.companyId
        deletedAt := none, updatedAt := none, createdAt := some now }
    (.ok (some p), { db with projects := db.projects ++ [p] })
  else
    match db.companies.find?
        (fun c => decide (c.id = data.companyId) && decide (c.ownerId = some user.id)) with
    | none => (.error (.forbidden "User can\x27t create project for company"), db)
    | some _ => (.ok none, db)

structure UpdateProjectDto where
  name : Option String := none
  unarchive : Bool := false
  deletedAt : Option (Option Nat) := none
  deriving DecidableEq, Repr

def applyProjectUpdate (data : UpdateProjectDto) (now : Nat) (p : Project) : Project :=
  { p with
    name := data.name.getD p.name
    deletedAt := data.deletedAt.getD p.deletedAt
    updatedAt := some now }

/-- `ProjectService.updateProjectById`: non-admins must pass the
`findFirst({ id, company: { ownerId } })` check (else ForbiddenException);
the update itself runs with `where: { id }`. -/
def ProjectService.updateProjectById (id : Nat) (user : JwtUserInfo)
    (data : UpdateProjectDto) (now : Nat) (db : Db) :
    Except ServiceError (Project × Db) :=
  let data2 := if data.unarchive = true then { data with deletedAt := some none } else data
  let runUpdate : Except ServiceError (Project × Db) :=
    match replaceFirst (fun p => decide (p.id = id))
        (applyProjectUpdate data2 now) db.projects with
    | none => .error (.prismaKnown (prismaP2025 "Project"))
    | some (projects2, p2) => .ok (p2, { db with projects := projects2 })
  if user.isAdmin = true then runUpdate
  else
    match db.projects.find?
        (fun p => decide (p.id = id) && projectCompanyOwned db p user.id) with
    | none => .error (.forbidden "User can\x27t update project")
    | some _ => runUpdate

/-- `ProjectService.getProjects`: same `where` for `findMany` and `count`. -/
def ProjectService.getProjects (options : PaginationOptionsDto) (user : JwtUserInfo)
    (db : Db) : BasePaginationDto Project :=
  let w : ProjectWhere :=
    if user.isAdmin = true then {} else { companyOwnerId := some user.id }
  let items := projectFindMany db w options.perPage (options.perPage * (options.page - 1))
  let count := projectCount db w
  { items := items
    meta :=
      { page := options.page
        perPage := items.length
        totalPages := mathCeilDiv count options.perPage
        total := count } }

/-! ### TaskService (src/task/task.service.ts) -/

/-- `OR: [{ reporterId: uid }, { assigneeId: uid }]`. -/
def taskReporterOrAssignee (uid : Nat) (t : Task) : Bool :=
  decide (t.reporterId = uid) || decide (t.assigneeId = some uid)

/-- `where` object of the task queries: none for admins, otherwise the
reporter-or-assignee OR-filter for the caller. -/
structure TaskWhere where
  reporterOrAssigneeId : Option Nat := none
  deriving DecidableEq, Repr

def taskWhereMatches (w : TaskWhere) (t : Task) : Bool :=
  match w.reporterOrAssigneeId with
  | none => true
  | some uid => taskReporterOrAssignee uid t

def taskFindMany (db : Db) (w : TaskWhere) (takeN skipN : Nat) : List Task :=
  ((db.tasks.filter (taskWhereMatches w)).drop skipN).take takeN

def taskCount (db : Db) (w : TaskWhere) : Nat :=
  (db.tasks.filter (taskWhereMatches w)).length

/-- `TaskService.getTaskById`: admins use `findUniqueOrThrow({ id })`,
others `findFirstOrThrow({ id, OR: [{ reporterId }, { assigneeId }] })`. -/
def TaskService.getTaskById (id : Nat) (user : JwtUserInfo) (db : Db) :
    Except ServiceError Task :=
  if user.isAdmin = true then
    match db.tasks.find? (fun t => decide (t.id = id)) with
    | some t => .ok t
    | none => .error (.prismaKnown (prismaP2025 "Task"))
  else
    match db.tasks.find?
        (fun t => decide (t.id = id) && taskReporterOrAssignee user.id t) with
    | some t => .ok t
    | none => .error (.prismaKnown (prismaP2025 "Task"))

/-- `Partial<Task> & UpdateTaskDto` payload. -/
structure UpdateTaskDto where
  name : Option String := none
  description : Option String := none
  statusId : Option Nat := none
  priorityId : Option Nat := none
  assigneeId : Option (Option Nat) := none
  unarchive : Bool := false
  deletedAt : Option (Option Nat) := none
  deriving DecidableEq, Repr

/-- `{ ...data, updatedAt }` with the `statusId → statudId` rename. -/
def applyTaskUpdate (data : UpdateTaskDto) (now : Nat) (t : Task) : Task :=
  { t with
    name := data.name.getD t.name
    description := data.description.getD t.description
    statudId := data.statusId.getD t.statudId
    priorityId := data.priorityId.getD t.priorityId
    assigneeId := data.assigneeId.getD t.assigneeId
    deletedAt := data.deletedAt.getD t.deletedAt
    updatedAt := some now }

/-- `TaskService.updateTaskById`: non-admins must pass the
`findFirst({ id, OR: [...] })` check (else ForbiddenException); the update
itself runs with `where: { id }`. -/
def TaskService.updateTaskById (id : Nat) (user : JwtUserInfo)
    (data : UpdateTaskDto) (now : Nat) (db : Db) :
    Except ServiceError (Task × Db) :=
  let data2 := if data.unarchive = true then { data with deletedAt := some none } else data
  let runUpdate : Except ServiceError (Task × Db) :=
    match replaceFirst (fun t => decide (t.id = id))
        (applyTaskUpdate data2 now) db.tasks with
    | none => .error (.prismaKnown (prismaP2025 "Task"))
    | some (tasks2, t2) => .ok (t2, { db with tasks := tasks2 })
  if user.isAdmin = true then runUpdate
  else
    match db.tasks.find?
        (fun t => decide (t.id = id) && taskReporterOrAssignee user.id t) with
    | none => .error (.forbidden "User can\x27t update task")
    | some _ => runUpdate

/-- `TaskService.getTasks`: same `where` for `findMany` and `count`. -/
def TaskService.getTasks (options : PaginationOptionsDto) (user : JwtUserInfo)
    (db : Db) : BasePaginationDto Task :=
  let w : TaskWhere :=
    if user.isAdmin = true then {} else { reporterOrAssigneeId := some user.id }
  let items := taskFindMany db w options.perPage (options.perPage * (options.page - 1))
  let count := taskCount db w
  { items := items
    meta :=
      { page := options.page
        perPage := items.length
        totalPages := mathCeilDiv count options.perPage
        total := count } }

/-! ### StatusService (src/status/status.service.ts) -/

/-- `StatusService.getStatuses`: no where-object at all; `findMany` with
take/skip and an unfiltered `count()`. -/
def StatusService.getStatuses (options : PaginationOptionsDto) (db : Db) :
    BasePaginationDto Status :=
  let items := (db.statuses.drop (options.perPage * (options.page - 1))).take options.perPage
  let count := db.statuses.length
  { items := items
    meta :=
      { page := options.page
        perPage := items.length
        totalPages := mathCeilDiv count options.perPage
        total := count } }

/-! ### PrismaKnownErrorFilter (src/prisma/filters/prisma-known-error.filter.ts) -/

/-- The single JSON response written by the filter (`response.status(s)` and
the `statusCode` body field always agree in the source). -/
structure HttpJsonResponse where
  statusCode : Nat
  error : String
  message : String
  deriving DecidableEq, Repr

/-- `PrismaKnownErrorFilter.catch`: P2025 → 404, P2002 → 400, anything else
→ 500; each branch writes exactly one response and returns. -/
def PrismaKnownErrorFilter.catchError (exception : PrismaKnownRequestError) :
    HttpJsonResponse :=
  if exception.code = "P2025" then
    { statusCode := 404
      error := "Not found"
      message := "Such " ++ exception.modelName ++ " does not exist" }
  else if exception.code = "P2002" then
    { statusCode := 400
      error := "Bad request"
      message := exception.modelName ++ " with such "
        ++ String.intercalate ", " exception.target ++ " already exists" }
  else
    { statusCode := 500
      error := "Internal Server Error"
      message := "Unhandled database exception" }

/-! ### General lemmas about the query primitives -/

theorem replaceFirst_eq_some {p : α → Bool} {f : α → α} {l l2 : List α} {y : α}
    (h : replaceFirst p f l = some (l2, y)) :
    ∃ x ∈ l, p x = true ∧ y = f x := by
  induction l generalizing l2 with
  | nil => simp [replaceFirst] at h
  | cons a as ih =>
    by_cases ha : p a
    · simp only [replaceFirst, ha, if_true, Option.some.injEq, Prod.mk.injEq] at h
      exact ⟨a, List.mem_cons_self a as, ha, h.2.symm⟩
    · simp only [replaceFirst, ha, if_false, Bool.false_eq_true] at h
      cases hrec : replaceFirst p f as with
      | none => rw [hrec] at h; simp at h
      | some pr =>
        obtain ⟨ys, y2⟩ := pr
        rw [hrec] at h
        simp only [Option.some.injEq, Prod.mk.injEq] at h
        have hrec2 : replaceFirst p f as = some (ys, y) := by rw [← h.2]; exact hrec
        obtain ⟨x, hx, hpx, hy⟩ := ih hrec2
        exact ⟨x, List.mem_cons_of_mem a hx, hpx, hy⟩

theorem find?_replaceFirst_split {p : α → Bool} (f : α → α) {l : List α} {x : α}
    (h : l.find? p = some x) :
    ∃ l1 l2, l = l1 ++ x :: l2 ∧
      replaceFirst p f l = some (l1 ++ f x :: l2, f x) := by
  induction l with
  | nil => simp at h
  | cons a as ih =>
    by_cases ha : p a
    · rw [List.find?_cons_of_pos _ ha, Option.some.injEq] at h
      subst h
      exact ⟨[], as, by simp, by simp [replaceFirst, ha]⟩
    · rw [List.find?_cons_of_neg _ ha] at h
      obtain ⟨l1, l2, hl, hr⟩ := ih h
      exact ⟨a :: l1, l2, by simp [hl], by simp [replaceFirst, ha, hr]⟩

/-! ### Claim theorems -/

/-- C1: for every user registered via `AuthService.signUp` with some email
and password, a subsequent `AuthService.signIn` with that same email and
password throws (`NotFoundException`), because `signIn` compares a freshly
computed bcrypt hash — generated with a fresh salt — against the stored
hash with `!==` instead of using a verify/compare primitive. -/
theorem signIn_after_signUp_always_fails (s : AuthState) (hWF : s.WF)
    (d : AuthSignUpDto) :
    (AuthService.signIn { email := d.email, password := d.password }
        (AuthService.signUp d s).2).1
      = .error (.notFound "User does not exist") :=
  signIn_fails_of_WF (hWF.signUp d) _

def emptyDb : Db :=
  { users := [], companies := [], projects := [], tasks := [], statuses := [] }

def emptyAuthState : AuthState := { db := emptyDb, nextNonce := 0, nextId := 0 }

/-- Witness for C1 at a concrete sign-up followed by a sign-in. -/
theorem signIn_after_signUp_always_fails_witness :
    (AuthService.signIn { email := "a@b.c", password := "pw" }
        (AuthService.signUp
          { email := "a@b.c", name := "alice", password := "pw" } emptyAuthState).2).1
      = .error (.notFound "User does not exist") :=
  signIn_after_signUp_always_fails emptyAuthState
    (by intro u hu; simp [emptyAuthState, emptyDb] at hu)
    { email := "a@b.c", name := "alice", password := "pw" }

/-- C10: for every stored user whose `deletedAt` is non-null,
`AuthService.signIn` with that user's email throws `NotFoundException` and
issues no token pair, whether or not the submitted password matches. -/
theorem signIn_soft_deleted_user_fails (s : AuthState) (data : AuthSignInDto)
    (u : User) (hfind : UserService.getOneByEmail data.email s.db = some u)
    (hdel : u.deletedAt ≠ none) :
    (AuthService.signIn data s).1 = .error (.notFound "User does not exist") := by
  unfold AuthService.signIn
  by_cases h : bcryptHash data.password s.nextNonce ≠ u.password
  · simp [hfind, h]
  · simp [hfind, h, hdel]

/-- A soft-deleted user whose stored hash would even match the fresh hash
computed at the next sign-in (salt nonce 3 = the counter value). -/
def deletedUser : User :=
  { id := 7, email := "d@x.y", name := "dora", password := ⟨3, "pw"⟩
    isAdmin := false, deletedAt := some 5 }

def deletedUserState : AuthState :=
  { db := { emptyDb with users := [deletedUser] }, nextNonce := 3, nextId := 8 }

/-- Witness for C10: the matching-password sign-in of a soft-deleted user
still fails. -/
theorem signIn_soft_deleted_user_fails_witness :
    (AuthService.signIn { email := "d@x.y", password := "pw" } deletedUserState).1
      = .error (.notFound "User does not exist") :=
  signIn_soft_deleted_user_fails deletedUserState
    { email := "d@x.y", password := "pw" } deletedUser (by rfl) (by decide)

/-- C6: `PrismaKnownErrorFilter.catch` maps P2025 to a 404 response, P2002
to a 400 response, and every other known request error code to a 500
response; being a function into `HttpJsonResponse`, it produces exactly one
response per caught error. -/
theorem prismaFilter_maps_error_codes (e : PrismaKnownRequestError) :
    (e.code = "P2025" → (PrismaKnownErrorFilter.catchError e).statusCode = 404)
  ∧ (e.code = "P2002" → (PrismaKnownErrorFilter.catchError e).statusCode = 400)
  ∧ (e.code ≠ "P2025" → e.code ≠ "P2002" →
      (PrismaKnownErrorFilter.catchError e).statusCode = 500) := by
  refine ⟨fun h => ?_, fun h => ?_, fun h1 h2 => ?_⟩
  · simp [PrismaKnownErrorFilter.catchError, h]
  · simp [PrismaKnownErrorFilter.catchError, h]
  · simp [PrismaKnownErrorFilter.catchError, h1, h2]

/-- Witness for C6 at one concrete error of each kind. -/
theorem prismaFilter_maps_error_codes_witness :
    (PrismaKnownErrorFilter.catchError (prismaP2025 "Company")).statusCode = 404
  ∧ (PrismaKnownErrorFilter.catchError
      { code := "P2002", modelName := "User", target := ["email"] }).statusCode = 400
  ∧ (PrismaKnownErrorFilter.catchError
      { code := "P2003", modelName := "Task", target := [] }).statusCode = 500 :=
  ⟨(prismaFilter_maps_error_codes (prismaP2025 "Company")).1 rfl,
   (prismaFilter_maps_error_codes _).2.1 rfl,
   (prismaFilter_maps_error_codes
      { code := "P2003", modelName := "Task", target := [] }).2.2
     (by decide) (by decide)⟩

theorem companyWhereMatches_none :
    companyWhereMatches { ownerId := none } = fun _ => true :=
  funext fun _ => rfl

theorem companyWhereMatches_some (v : Nat) :
    companyWhereMatches { ownerId := some v } = fun c => decide (c.ownerId = some v) :=
  funext fun _ => rfl

theorem projectWhereMatches_none (db : Db) :
    projectWhereMatches db { companyOwnerId := none } = fun _ => true :=
  funext fun _ => rfl

theorem projectWhereMatches_some (db : Db) (v : Nat) :
    projectWhereMatches db { companyOwnerId := some v } = fun p => projectCompanyOwned db p v :=
  funext fun _ => rfl

theorem taskWhereMatches_none :
    taskWhereMatches { reporterOrAssigneeId := none } = fun _ => true :=
  funext fun _ => rfl

theorem taskWhereMatches_some (v : Nat) :
    taskWhereMatches { reporterOrAssigneeId := some v } = fun t => taskReporterOrAssignee v t :=
  funext fun _ => rfl

theorem getCompanies_filter_eq (db : Db) (u : JwtUserInfo) (o : PaginationOptionsDto) :
    (CompanyService.getCompanies o u db).items
      = ((db.companies.filter fun c => u.isAdmin || decide (c.ownerId = some u.id)).drop
          (o.perPage * (o.page - 1))).take o.perPage
  ∧ (CompanyService.getCompanies o u db).meta.total
      = (db.companies.filter fun c => u.isAdmin || decide (c.ownerId = some u.id)).length := by
  cases hA : u.isAdmin <;>
    simp [CompanyService.getCompanies, companyFindMany, companyCount, hA,
      companyWhereMatches_none, companyWhereMatches_some, List.filter_true]

theorem getProjects_filter_eq (db : Db) (u : JwtUserInfo) (o : PaginationOptionsDto) :
    (ProjectService.getProjects o u db).items
      = ((db.projects.filter fun p => u.isAdmin || projectCompanyOwned db p u.id).drop
          (o.perPage * (o.page - 1))).take o.perPage
  ∧ (ProjectService.getProjects o u db).meta.total
      = (db.projects.filter fun p => u.isAdmin || projectCompanyOwned db p u.id).length := by
  cases hA : u.isAdmin <;>
    simp [ProjectService.getProjects, projectFindMany, projectCount, hA,
      projectWhereMatches_none, projectWhereMatches_some, List.filter_true]

theorem getTasks_filter_eq (db : Db) (u : JwtUserInfo) (o : PaginationOptionsDto) :
    (TaskService.getTasks o u db).items
      = ((db.tasks.filter fun t => u.isAdmin || taskReporterOrAssignee u.id t).drop
          (o.perPage * (o.page - 1))).take o.perPage
  ∧ (TaskService.getTasks o u db).meta.total
      = (db.tasks.filter fun t => u.isAdmin || taskReporterOrAssignee u.id t).length := by
  cases hA : u.isAdmin <;>
    simp [TaskService.getTasks, taskFindMany, taskCount, hA,
      taskWhereMatches_none, taskWhereMatches_some, List.filter_true]

/-- C2: for every caller and paging request, each listing operation passes
the same where-filter to the listing query and to the count query — the
returned items are a take/skip page of one filtered list and `meta.total`
is the length of that same list — and that filter is empty when the caller
is admin, and otherwise restricts companies to `ownerId = caller.id`,
projects to those whose company has `ownerId = caller.id`, and tasks to
`reporterId = caller.id` or `assigneeId = caller.id`. -/
theorem listing_and_count_use_same_ownership_filter (db : Db) (u : JwtUserInfo)
    (o : PaginationOptionsDto) :
    ((CompanyService.getCompanies o u db).items
        = ((db.companies.filter fun c => u.isAdmin || decide (c.ownerId = some u.id)).drop
            (o.perPage * (o.page - 1))).take o.perPage
      ∧ (CompanyService.getCompanies o u db).meta.total
        = (db.companies.filter fun c => u.isAdmin || decide (c.ownerId = some u.id)).length)
  ∧ ((ProjectService.getProjects o u db).items
        = ((db.projects.filter fun p => u.isAdmin || projectCompanyOwned db p u.id).drop
            (o.perPage * (o.page - 1))).take o.perPage
      ∧ (ProjectService.getProjects o u db).meta.total
        = (db.projects.filter fun p => u.isAdmin || projectCompanyOwned db p u.id).length)
  ∧ ((TaskService.getTasks o u db).items
        = ((db.tasks.filter fun t => u.isAdmin || taskReporterOrAssignee u.id t).drop
            (o.perPage * (o.page - 1))).take o.perPage
      ∧ (TaskService.getTasks o u db).meta.total
        = (db.tasks.filter fun t => u.isAdmin || taskReporterOrAssignee u.id t).length) :=
  ⟨getCompanies_filter_eq db u o, getProjects_filter_eq db u o, getTasks_filter_eq db u o⟩

/-- C3: for every non-admin caller the single-record read and update
operations enforce ownership scoping — a success of
`getCompanyById`/`updateCompanyById` concerns only a company whose
`ownerId` is the caller's id, of `getProjectById`/`updateProjectById` only
a project whose company is owned by the caller, and of
`getTaskById`/`updateTaskById` only a task the caller reports or is
assigned; every other case is an `.error` (a thrown exception), as the
`Except` result type records. -/
theorem nonadmin_ops_enforce_ownership (u : JwtUserInfo) (hu : u.isAdmin = false)
    (db : Db) :
    (∀ id c, CompanyService.getCompanyById id u db = .ok c →
        c ∈ db.companies ∧ c.id = id ∧ c.ownerId = some u.id)
  ∧ (∀ id data now r, CompanyService.updateCompanyById id u data now db = .ok r →
        ∃ c ∈ db.companies, c.id = id ∧ c.ownerId = some u.id)
  ∧ (∀ id p, ProjectService.getProjectById id u db = .ok p →
        p ∈ db.projects ∧ p.id = id ∧
        ∃ c ∈ db.companies, p.companyId = some c.id ∧ c.ownerId = some u.id)
  ∧ (∀ id data now r, ProjectService.updateProjectById id u data now db = .ok r →
        ∃ p ∈ db.projects, p.id = id ∧
        ∃ c ∈ db.companies, p.companyId = some c.id ∧ c.ownerId = some u.id)
  ∧ (∀ id t, TaskService.getTaskById id u db = .ok t →
        t ∈ db.tasks ∧ t.id = id ∧ (t.reporterId = u.id ∨ t.assigneeId = some u.id))
  ∧ (∀ id data now r, TaskService.updateTaskById id u data now db = .ok r →
        ∃ t ∈ db.tasks, t.id = id ∧ (t.reporterId = u.id ∨ t.assigneeId = some u.id)) := by
  refine ⟨?_, ?_, ?_, ?_, ?_, ?_⟩
  · intro id c h
    unfold CompanyService.getCompanyById at h
    cases hf : db.companies.find? (fun c => decide (c.id = id)) with
    | none => rw [hf] at h; simp at h
    | some company =>
      rw [hf] at h
      dsimp only at h
      by_cases hcond : company.ownerId = some u.id ∨ u.isAdmin = true
      · rw [if_pos hcond, Except.ok.injEq] at h
        subst h
        have hid : company.id = id := by simpa using List.find?_some hf
        rcases hcond with hown | hadm
        · exact ⟨List.mem_of_find?_eq_some hf, hid, hown⟩
        · rw [hu] at hadm; cases hadm
      · rw [if_neg hcond] at h; simp at h
  · intro id data now r h
    simp only [CompanyService.updateCompanyById, hu, Bool.false_eq_true, if_false,
      Option.all_some] at h
    cases hrep : replaceFirst
        (fun c => decide (c.id = id) && decide (c.ownerId = some u.id))
        (applyCompanyUpdate
          (if data.unarchive = true then { data with deletedAt := some none } else data) now)
        db.companies with
    | none => rw [hrep] at h; simp at h
    | some pr =>
      obtain ⟨cs, c2⟩ := pr
      obtain ⟨x, hx, hpx, _⟩ := replaceFirst_eq_some hrep
      simp only [Bool.and_eq_true, decide_eq_true_eq] at hpx
      exact ⟨x, hx, hpx.1, hpx.2⟩
  · intro id p h
    simp only [ProjectService.getProjectById, hu, Bool.false_eq_true, if_false] at h
    cases hf : db.projects.find?
        (fun p => decide (p.id = id) && projectCompanyOwned db p u.id) with
    | none => rw [hf] at h; simp at h
    | some q =>
      rw [hf, Except.ok.injEq] at h
      subst h
      have hpred := List.find?_some hf
      simp only [Bool.and_eq_true, decide_eq_true_eq] at hpred
      have howned := hpred.2
      unfold projectCompanyOwned at howned
      rw [List.any_eq_true] at howned
      obtain ⟨c, hc, hcp⟩ := howned
      simp only [Bool.and_eq_true, decide_eq_true_eq] at hcp
      exact ⟨List.mem_of_find?_eq_some hf, hpred.1, c, hc, hcp.1, hcp.2⟩
  · intro id data now r h
    simp only [ProjectService.updateProjectById, hu, Bool.false_eq_true, if_false] at h
    cases hf : db.projects.find?
        (fun p => decide (p.id = id) && projectCompanyOwned db p u.id) with
    | none => rw [hf] at h; simp at h
    | some q =>
      rw [hf] at h
      have hpred := List.find?_some hf
      simp only [Bool.and_eq_true, decide_eq_true_eq] at hpred
      have howned := hpred.2
      unfold projectCompanyOwned at howned
      rw [List.any_eq_true] at howned
      obtain ⟨c, hc, hcp⟩ := howned
      simp only [Bool.and_eq_true, decide_eq_true_eq] at hcp
      exact ⟨q, List.mem_of_find?_eq_some hf, hpred.1, c, hc, hcp.1, hcp.2⟩
  · intro id t h
    simp only [TaskService.getTaskById, hu, Bool.false_eq_true, if_false] at h
    cases hf : db.tasks.find?
        (fun t => decide (t.id = id) && taskReporterOrAssignee u.id t) with
    | none => rw [hf] at h; simp at h
    | some q =>
      rw [hf, Except.ok.injEq] at h
      subst h
      have hpred := List.find?_some hf
      simp only [Bool.and_eq_true, decide_eq_true_eq, taskReporterOrAssignee,
        Bool.or_eq_true] at hpred
      exact ⟨List.mem_of_find?_eq_some hf, hpred.1, hpred.2⟩
  · intro id data now r h
    simp only [TaskService.updateTaskById, hu, Bool.false_eq_true, if_false] at h
    cases hf : db.tasks.find?
        (fun t => decide (t.id = id) && taskReporterOrAssignee u.id t) with
    | none => rw [hf] at h; simp at h
    | some q =>
      have hpred := List.find?_some hf
      simp only [Bool.and_eq_true, decide_eq_true_eq, taskReporterOrAssignee,
        Bool.or_eq_true] at hpred
      exact ⟨q, List.mem_of_find?_eq_some hf, hpred.1, hpred.2⟩

def companyA : Company :=
  { id := 10, name := "acme", ownerId := some 1
    deletedAt := none, updatedAt := none, createdAt := none }

def projectA : Project :=
  { id := 20, name := "proj", companyId := some 10
    deletedAt := none, updatedAt := none, createdAt := none }

def taskA : Task :=
  { id := 30, name := "task", description := "d", statudId := 40
    assigneeId := some 1, reporterId := 2, priorityId := 50
    deletedAt := none, updatedAt := none, createdAt := none }

def statusA : Status := { id := 40, name := "open" }

def sampleDb : Db :=
  { users := [], companies := [companyA], projects := [projectA]
    tasks := [taskA], statuses := [statusA] }

def nonAdminUser : JwtUserInfo := { id := 1, name := "bob", isAdmin := false }

/-- Witness for C3: the three successful reads of a non-admin caller on a
concrete database all concern records the caller owns or is assigned. -/
theorem nonadmin_ops_enforce_ownership_witness :
    (companyA ∈ sampleDb.companies ∧ companyA.id = 10
      ∧ companyA.ownerId = some nonAdminUser.id)
  ∧ (projectA ∈ sampleDb.projects ∧ projectA.id = 20
      ∧ ∃ c ∈ sampleDb.companies, projectA.companyId = some c.id
          ∧ c.ownerId = some nonAdminUser.id)
  ∧ (taskA ∈ sampleDb.tasks ∧ taskA.id = 30
      ∧ (taskA.reporterId = nonAdminUser.id ∨ taskA.assigneeId = some nonAdminUser.id)) :=
  ⟨(nonadmin_ops_enforce_ownership nonAdminUser rfl sampleDb).1 10 companyA rfl,
   (nonadmin_ops_enforce_ownership nonAdminUser rfl sampleDb).2.2.1 20 projectA rfl,
   (nonadmin_ops_enforce_ownership nonAdminUser rfl sampleDb).2.2.2.2.1 30 taskA rfl⟩

/-- C7: `UserService.deleteOne` soft-deletes — the found user record is
rewritten in place with only `deletedAt` set to the timestamp (the record
literal leaves every other field of `u` unchanged), the surrounding list is
untouched and the row is not removed. -/
theorem deleteOne_soft_deletes (db : Db) (userId now : Nat) (u : User)
    (h : db.users.find? (fun v => decide (v.id = userId)) = some u) :
    ∃ l1 l2, db.users = l1 ++ u :: l2 ∧
      UserService.deleteOne userId now db =
        .ok ({ u with deletedAt := some now },
             { db with users := l1 ++ { u with deletedAt := some now } :: l2 }) := by
  obtain ⟨l1, l2, hl, hr⟩ :=
    find?_replaceFirst_split (applyUserUpdate { deletedAt := some (some now) }) h
  refine ⟨l1, l2, hl, ?_⟩
  unfold UserService.deleteOne UserService.update
  rw [hr]
  rfl

def userA : User :=
  { id := 7, email := "u@x.y", name := "uma", password := ⟨0, "pw"⟩
    isAdmin := false, deletedAt := none }

def userDb : Db := { emptyDb with users := [userA] }

/-- Witness for C7 on a one-user database. -/
theorem deleteOne_soft_deletes_witness :
    ∃ l1 l2, userDb.users = l1 ++ userA :: l2 ∧
      UserService.deleteOne 7 5 userDb =
        .ok ({ userA with deletedAt := some 5 },
             { userDb with users := l1 ++ { userA with deletedAt := some 5 } :: l2 }) :=
  deleteOne_soft_deletes userDb 7 5 userA rfl

/-- C8: a non-admin caller who owns the target company makes
`ProjectService.createProject` fall through without creating anything,
returning `undefined` (`.ok none`) and an unchanged database; more
generally no non-admin call ever changes the database, so a project row is
only ever created by an admin. -/
theorem createProject_nonadmin_owner_noop :
    (∀ (data : CreateProjectDto) (u : JwtUserInfo) (newId now : Nat) (db : Db),
        u.isAdmin = false →
        (∃ c ∈ db.companies, c.id = data.companyId ∧ c.ownerId = some u.id) →
        ProjectService.createProject data u newId now db = (.ok none, db))
  ∧ (∀ (data : CreateProjectDto) (u : JwtUserInfo) (newId now : Nat) (db : Db),
        u.isAdmin = false →
        (ProjectService.createProject data u newId now db).2 = db) := by
  constructor
  · intro data u newId now db hu hex
    have hsome : (db.companies.find?
        (fun c => decide (c.id = data.companyId) && decide (c.ownerId = some u.id))).isSome := by
      rw [List.find?_isSome]
      obtain ⟨c, hc, h1, h2⟩ := hex
      exact ⟨c, hc, by simp [h1, h2]⟩
    cases hf : db.companies.find?
        (fun c => decide (c.id = data.companyId) && decide (c.ownerId = some u.id)) with
    | none => rw [hf] at hsome; simp at hsome
    | some c => simp [ProjectService.createProject, hu, hf]
  · intro data u newId now db hu
    simp only [ProjectService.createProject, hu, Bool.false_eq_true, if_false]
    cases hf : db.companies.find?
        (fun c => decide (c.id = data.companyId) && decide (c.ownerId = some u.id)) with
    | none => rfl
    | some c => rfl

/-- Witness for C8: a concrete non-admin owner gets `(.ok none, db)`. -/
theorem createProject_nonadmin_owner_noop_witness :
    ProjectService.createProject { name := "p", companyId := 10 } nonAdminUser 99 0 sampleDb
      = (.ok none, sampleDb) :=
  createProject_nonadmin_owner_noop.1 { name := "p", companyId := 10 }
    nonAdminUser 99 0 sampleDb rfl ⟨companyA, by simp [sampleDb], rfl, rfl⟩

/-- C5: when the requested offset `perPage * (page - 1)` is at or beyond
the number of records visible to the caller (`meta.total`), the pagination
operations return an empty items list; the services are total functions of
their inputs, so no error is thrown on out-of-range pages. -/
theorem out_of_range_page_returns_empty (db : Db) (u : JwtUserInfo)
    (o : PaginationOptionsDto) :
    ((CompanyService.getCompanies o u db).meta.total ≤ o.perPage * (o.page - 1) →
      (CompanyService.getCompanies o u db).items = [])
  ∧ ((StatusService.getStatuses o db).meta.total ≤ o.perPage * (o.page - 1) →
      (StatusService.getStatuses o db).items = []) := by
  constructor
  · intro h
    simp only [CompanyService.getCompanies, companyFindMany, companyCount] at h ⊢
    rw [List.drop_eq_nil_of_le h, List.take_nil]
  · intro h
    simp only [StatusService.getStatuses] at h ⊢
    rw [List.drop_eq_nil_of_le h, List.take_nil]

/-- Witness for C5: page 5 of 2-per-page over a single visible record. -/
theorem out_of_range_page_returns_empty_witness :
    (CompanyService.getCompanies { page := 5, perPage := 2 } nonAdminUser sampleDb).items = []
  ∧ (StatusService.getStatuses { page := 5, perPage := 2 } sampleDb).items = [] :=
  ⟨(out_of_range_page_returns_empty sampleDb nonAdminUser { page := 5, perPage := 2 }).1
      (by decide),
   (out_of_range_page_returns_empty sampleDb nonAdminUser { page := 5, perPage := 2 }).2
      (by decide)⟩

theorem mathCeilDiv_eq_natCeil (a : ℕ) {b : ℕ} (hb : 1 ≤ b) :
    mathCeilDiv a b = ⌈(a : ℚ) / (b : ℚ)⌉₊ := by
  have hb0 : 0 < b := hb
  have hbQ : (0:ℚ) < (b:ℚ) := by exact_mod_cast hb0
  rcases Nat.eq_zero_or_pos a with rfl | ha
  · have h0 : mathCeilDiv 0 b = 0 := by
      unfold mathCeilDiv
      exact Nat.div_eq_of_lt (by omega)
    rw [h0]
    simp
  · set q := mathCeilDiv a b with hq
    have h1 : b * q ≤ a + b - 1 := by
      rw [hq]; unfold mathCeilDiv; exact Nat.mul_div_le _ _
    have h2 : a + b - 1 < b * (q + 1) := by
      rw [hq]; unfold mathCeilDiv; exact Nat.lt_mul_div_succ _ hb0
    have hq1 : 1 ≤ q := by
      rw [hq]; unfold mathCeilDiv
      exact (Nat.one_le_div_iff hb0).mpr (by omega)
    have hle : a ≤ q * b := by
      rw [mul_add, mul_one] at h2
      rw [mul_comm]
      generalize hm : b * q = m at h2 ⊢
      omega
    have hlt : (q - 1) * b < a := by
      have hbm : b ≤ b * q := Nat.le_mul_of_pos_right b hq1
      have hqb : (q - 1) * b = b * q - b := by
        rw [Nat.sub_mul, one_mul, mul_comm]
      rw [hqb]
      generalize hm : b * q = m at h1 hbm ⊢
      omega
    refine Nat.le_antisymm ?_ ?_
    · have hcast : ((q - 1 : ℕ) : ℚ) < (a : ℚ) / (b : ℚ) := by
        rw [lt_div_iff₀ hbQ]
        exact_mod_cast hlt
      have h3 : q - 1 < ⌈(a : ℚ) / (b : ℚ)⌉₊ := Nat.lt_ceil.mpr hcast
      omega
    · refine Nat.ceil_le.mpr ?_
      rw [div_le_iff₀ hbQ]
      exact_mod_cast hle

/-- The claimed shape of a pagination result over a list of visible
records, with `meta.perPage` being the length of the returned page (what
the code computes) rather than the requested `perPage`. -/
def PaginationSpec {α : Type} (visible : List α) (o : PaginationOptionsDto)
    (r : BasePaginationDto α) : Prop :=
  r.items = (visible.drop (o.perPage * (o.page - 1))).take o.perPage
  ∧ r.meta.page = o.page
  ∧ r.meta.total = visible.length
  ∧ r.meta.totalPages = ⌈(visible.length : ℚ) / (o.perPage : ℚ)⌉₊
  ∧ r.meta.perPage = r.items.length

/-- C4 counterexample: with one status in the database and a request for
page 1 with perPage 2, `meta.perPage` is 1 (the number of returned items),
not the requested 2 — refuting the claim that `meta.perPage` equals the
requested `perPage`. -/
theorem getStatuses_meta_perPage_not_requested :
    (StatusService.getStatuses { page := 1, perPage := 2 } sampleDb).meta.perPage ≠ 2 := by
  decide

/-- C4 (amended): each pagination operation queries with offset
`perPage * (page − 1)` and limit `perPage` over the list visible to the
caller, and returns meta with `page` the requested page, `total` the count
of matching records, `totalPages = ceil(count / perPage)` — but `perPage`
equal to the number of items actually returned, not the requested
`perPage`. -/
theorem pagination_shape_amended (db : Db) (u : JwtUserInfo)
    (o : PaginationOptionsDto) (_hpage : 1 ≤ o.page) (hper : 1 ≤ o.perPage) :
    PaginationSpec (db.companies.filter fun c => u.isAdmin || decide (c.ownerId = some u.id))
      o (CompanyService.getCompanies o u db)
  ∧ PaginationSpec (db.tasks.filter fun t => u.isAdmin || taskReporterOrAssignee u.id t)
      o (TaskService.getTasks o u db)
  ∧ PaginationSpec db.statuses o (StatusService.getStatuses o db) := by
  refine ⟨⟨(getCompanies_filter_eq db u o).1, rfl, (getCompanies_filter_eq db u o).2, ?_, rfl⟩,
    ⟨(getTasks_filter_eq db u o).1, rfl, (getTasks_filter_eq db u o).2, ?_, rfl⟩,
    ⟨rfl, rfl, rfl, ?_, rfl⟩⟩
  · show mathCeilDiv _ o.perPage = _
    rw [mathCeilDiv_eq_natCeil _ hper]
    cases hA : u.isAdmin <;>
      simp [companyCount, hA, companyWhereMatches_none, companyWhereMatches_some,
        List.filter_true]
  · show mathCeilDiv _ o.perPage = _
    rw [mathCeilDiv_eq_natCeil _ hper]
    cases hA : u.isAdmin <;>
      simp [taskCount, hA, taskWhereMatches_none, taskWhereMatches_some, List.filter_true]
  · show mathCeilDiv _ o.perPage = _
    rw [mathCeilDiv_eq_natCeil _ hper]

/-- Witness for the amended C4 at a concrete database and paging request. -/
theorem pagination_shape_amended_witness :
    PaginationSpec
      (sampleDb.companies.filter fun c =>
        nonAdminUser.isAdmin || decide (c.ownerId = some nonAdminUser.id))
      { page := 1, perPage := 2 }
      (CompanyService.getCompanies { page := 1, perPage := 2 } nonAdminUser sampleDb)
  ∧ PaginationSpec
      (sampleDb.tasks.filter fun t =>
        nonAdminUser.isAdmin || taskReporterOrAssignee nonAdminUser.id t)
      { page := 1, perPage := 2 }
      (TaskService.getTasks { page := 1, perPage := 2 } nonAdminUser sampleDb)
  ∧ PaginationSpec sampleDb.statuses { page := 1, perPage := 2 }
      (StatusService.getStatuses { page := 1, perPage := 2 } sampleDb) :=
  pagination_shape_amended sampleDb nonAdminUser { page := 1, perPage := 2 }
    (by decide) (by decide)

/-- Paging over a mapped-and-filtered list commutes with the map, given
that the filter cannot tell a mapped element from the original. -/
theorem page_map_comm {α : Type} (l : List α) (g : α → α) (P Q : α → Bool)
    (hPQ : ∀ x, P (g x) = Q x) (t s : Nat) :
    ((((l.map g).filter P).drop s).take t = (((l.filter Q).drop s).take t).map g)
  ∧ ((l.map g).filter P).length = (l.filter Q).length := by
  have hfil : (l.map g).filter P = (l.filter Q).map g := by
    rw [List.filter_map]
    congr 1
    exact List.filter_congr (fun x _ => hPQ x)
  constructor
  · rw [hfil, List.map_take, List.map_drop]
  · rw [hfil, List.length_map]

/-- Reassign the `deletedAt` column of every company, project and task row
arbitrarily (all other columns untouched): the soft-delete frame used to
show the listing queries never consult `deletedAt`. -/
def markDb (db : Db) (fc : Company → Option Nat) (fp : Project → Option Nat)
    (ft : Task → Option Nat) : Db :=
  { db with
    companies := db.companies.map fun c => { c with deletedAt := fc c }
    projects := db.projects.map fun p => { p with deletedAt := fp p }
    tasks := db.tasks.map fun t => { t with deletedAt := ft t } }

theorem projectCompanyOwned_mark (db : Db) (fc : Company → Option Nat)
    (fp : Project → Option Nat) (ft : Task → Option Nat) (p : Project) (uid : Nat) :
    projectCompanyOwned (markDb db fc fp ft) { p with deletedAt := fp p } uid
      = projectCompanyOwned db p uid := by
  unfold projectCompanyOwned markDb
  rw [List.any_map]
  rfl

/-- C9: the listing and count queries of `getCompanies`, `getProjects` and
`getTasks` place no condition on `deletedAt`: rewriting the `deletedAt`
column of every row arbitrarily (`markDb`) maps the returned items
pointwise and leaves `meta.total` unchanged, for admin and non-admin
callers alike — soft-deleted rows are listed and counted exactly like live
rows. -/
theorem listings_include_soft_deleted (db : Db) (u : JwtUserInfo)
    (o : PaginationOptionsDto) (fc : Company → Option Nat)
    (fp : Project → Option Nat) (ft : Task → Option Nat) :
    ((CompanyService.getCompanies o u (markDb db fc fp ft)).items
        = (CompanyService.getCompanies o u db).items.map (fun c => { c with deletedAt := fc c })
      ∧ (CompanyService.getCompanies o u (markDb db fc fp ft)).meta.total
        = (CompanyService.getCompanies o u db).meta.total)
  ∧ ((ProjectService.getProjects o u (markDb db fc fp ft)).items
        = (ProjectService.getProjects o u db).items.map (fun p => { p with deletedAt := fp p })
      ∧ (ProjectService.getProjects o u (markDb db fc fp ft)).meta.total
        = (ProjectService.getProjects o u db).meta.total)
  ∧ ((TaskService.getTasks o u (markDb db fc fp ft)).items
        = (TaskService.getTasks o u db).items.map (fun t => { t with deletedAt := ft t })
      ∧ (TaskService.getTasks o u (markDb db fc fp ft)).meta.total
        = (TaskService.getTasks o u db).meta.total) := by
  refine ⟨?_, ?_, ?_⟩
  · obtain ⟨hi1, ht1⟩ := getCompanies_filter_eq (markDb db fc fp ft) u o
    obtain ⟨hi2, ht2⟩ := getCompanies_filter_eq db u o
    have hcomm := page_map_comm db.companies (fun c => { c with deletedAt := fc c })
      (fun c => u.isAdmin || decide (c.ownerId = some u.id))
      (fun c => u.isAdmin || decide (c.ownerId = some u.id))
      (fun _ => rfl) o.perPage (o.perPage * (o.page - 1))
    exact ⟨by rw [hi1, hi2]; exact hcomm.1, by rw [ht1, ht2]; exact hcomm.2⟩
  · obtain ⟨hi1, ht1⟩ := getProjects_filter_eq (markDb db fc fp ft) u o
    obtain ⟨hi2, ht2⟩ := getProjects_filter_eq db u o
    have hcomm := page_map_comm db.projects (fun p => { p with deletedAt := fp p })
      (fun p => u.isAdmin || projectCompanyOwned (markDb db fc fp ft) p u.id)
      (fun p => u.isAdmin || projectCompanyOwned db p u.id)
      (fun p => by
        show (u.isAdmin || projectCompanyOwned (markDb db fc fp ft)
            { p with deletedAt := fp p } u.id)
          = (u.isAdmin || projectCompanyOwned db p u.id)
        rw [projectCompanyOwned_mark])
      o.perPage (o.perPage * (o.page - 1))
    exact ⟨by rw [hi1, hi2]; exact hcomm.1, by rw [ht1, ht2]; exact hcomm.2⟩
  · obtain ⟨hi1, ht1⟩ := getTasks_filter_eq (markDb db fc fp ft) u o
    obtain ⟨hi2, ht2⟩ := getTasks_filter_eq db u o
    have hcomm := page_map_comm db.tasks (fun t => { t with deletedAt := ft t })
      (fun t => u.isAdmin || taskReporterOrAssignee u.id t)
      (fun t => u.isAdmin || taskReporterOrAssignee u.id t)
      (fun _ => rfl) o.perPage (o.perPage * (o.page - 1))
    exact ⟨by rw [hi1, hi2]; exact hcomm.1, by rw [ht1, ht2]; exact hcomm.2⟩

end NestBoilerplate
